import Mathlib

/-!
Shallow embedding of the specs-actors nv14 state-tree migration
(`actors/migration/nv14/top.go`, `actors/migration/nv14/power.go`, and the
miner-migrator file), together with theorems checking the specification's
claims against it.

Modelling conventions:
* `big.Int` is `Int`; `uint64` counters are `Nat`; `abi.ChainEpoch` is `Int`.
* Content identifiers (`cid.Cid`) are strings.  `store.Put` of the migrated
  power state is content addressing: it is modelled by a deterministic
  encoding of the state value into a string (`putPowerState`).
* The state-tree HAMT and the power actor's claims HAMT are modelled by
  association lists holding their contents; the input-tree enumeration
  order of `actorsIn.ForEach` is the list order.
* Go `(result, error)` returns become `Except GoError result` with the
  source's error strings.
* The producer / worker-pool / single-writer pipeline of `MigrateStateTree`
  is sequentialised: jobs run in traversal order, and the single writer
  consumes the results in an arbitrary arrival order, modelled by an
  explicit `arrival` reordering parameter (worker completion order is
  nondeterministic in the source).  The migration cache is threaded through
  the jobs in that same order; every cache key contains the job's address,
  so distinct jobs never interact through the cache.
-/

open List

namespace Nv14

/-- Go errors are modelled by their message strings. -/
abbrev GoError := String

/-- `address.Address`, modelled by its textual form (for example `t0100`).
The external address codec is out of scope; `address.NewFromString` on a
claim key is modelled as the identity. -/
abbrev Address := String

/-- `cid.Cid`, modelled as an opaque string.  `cid.Undef` is the empty
string. -/
abbrev Cid := String

/-- `big.Int` (token amounts and storage powers). -/
abbrev BigInt := Int

/-- `abi.ChainEpoch` (an `int64`). -/
abbrev ChainEpoch := Int

/-- `abi.RegisteredPoStProof`: the window/winning proof types that occur in
miner infos and power claims. -/
inductive RegisteredPoStProof where
  | StackedDrgWinning2KiBV1
  | StackedDrgWinning8MiBV1
  | StackedDrgWinning512MiBV1
  | StackedDrgWinning32GiBV1
  | StackedDrgWinning64GiBV1
  | StackedDrgWindow2KiBV1
  | StackedDrgWindow8MiBV1
  | StackedDrgWindow512MiBV1
  | StackedDrgWindow32GiBV1
  | StackedDrgWindow64GiBV1
  deriving DecidableEq, Repr

/-- `isTestPostProofType` (defined identically in the miner-migrator file
and in `power.go`): membership in the fixed array of the six small-sector
winning/window test proof types. -/
def isTestPostProofType (proofType : RegisteredPoStProof) : Bool :=
  let testPoStProofTypes : List RegisteredPoStProof :=
    [.StackedDrgWinning2KiBV1, .StackedDrgWinning8MiBV1, .StackedDrgWinning512MiBV1,
     .StackedDrgWindow2KiBV1, .StackedDrgWindow8MiBV1, .StackedDrgWindow512MiBV1]
  testPoStProofTypes.contains proofType

/-- The actor code identifiers of the v5 (input) and v6 (output) builtin
actors, as referenced by `top.go`'s migrations map and by the migrators. -/
inductive CodeCID where
  | AccountV5 | CronV5 | InitV5 | MultisigV5 | PaymentChannelV5 | RewardV5
  | StorageMarketV5 | StorageMinerV5 | StoragePowerV5 | SystemV5 | VerifiedRegistryV5
  | AccountV6 | CronV6 | InitV6 | MultisigV6 | PaymentChannelV6 | RewardV6
  | StorageMarketV6 | StorageMinerV6 | StoragePowerV6 | SystemV6 | VerifiedRegistryV6
  deriving DecidableEq, Repr

/-- `builtin5.ActorNameByCode`, the external name registry used only inside
error messages; unknown codes print `<unknown>`. -/
def ActorNameByCode : CodeCID → String
  | .AccountV5 => "fil/5/account"
  | .CronV5 => "fil/5/cron"
  | .InitV5 => "fil/5/init"
  | .MultisigV5 => "fil/5/multisig"
  | .PaymentChannelV5 => "fil/5/paymentchannel"
  | .RewardV5 => "fil/5/reward"
  | .StorageMarketV5 => "fil/5/storagemarket"
  | .StorageMinerV5 => "fil/5/storageminer"
  | .StoragePowerV5 => "fil/5/storagepower"
  | .SystemV5 => "fil/5/system"
  | .VerifiedRegistryV5 => "fil/5/verifiedregistry"
  | _ => "<unknown>"

/-- `states5.Actor` / `states6.Actor` (identical layouts): an actor record
of the state tree. -/
structure Actor where
  Code : CodeCID
  Head : Cid
  CallSeqNum : Nat
  Balance : BigInt
  deriving DecidableEq, Repr

/-- A state tree (`states5.Tree` contents): association list from address
to actor record, in HAMT traversal order. -/
abbrev StateTree := List (Address × Actor)

/-- `tree.GetActor`: first binding of the address, if any. -/
def GetActor : StateTree → Address → Option Actor
  | [], _ => none
  | (a, act) :: t, addr => if a = addr then some act else GetActor t addr

/-- `tree.SetActor`: replace the binding of the address if present,
otherwise append a new binding. -/
def SetActor : StateTree → Address → Actor → StateTree
  | [], addr, act => [(addr, act)]
  | (a, x) :: t, addr, act =>
    if a = addr then (a, act) :: t else (a, x) :: SetActor t addr act

/-! ## Migration cache (`MigrationCache`) -/

/-- The migration cache contents: a mapping `string → cid`, most recent
write first. -/
abbrev Cache := List (String × Cid)

/-- `cache.Read`. -/
def cacheRead : Cache → String → Option Cid
  | [], _ => none
  | (k, v) :: c, key => if k = key then some v else cacheRead c key

/-- `cache.Load(key, loadFunc)`: return the cached cid if present, else run
`loadFunc`, record its result under `key` and return it.  The updated cache
is returned explicitly (the Go cache is a shared mutable object). -/
def MigrationCache.load (cache : Cache) (key : String)
    (loadFunc : Unit → Except GoError Cid) : Except GoError (Cid × Cache) :=
  match cacheRead cache key with
  | some c => Except.ok (c, cache)
  | none =>
    match loadFunc () with
    | Except.error e => Except.error e
    | Except.ok c => Except.ok (c, (key, c) :: cache)

/-- `ActorHeadKey(addr, head)` from `top.go`. -/
def ActorHeadKey (addr : Address) (head : Cid) : String :=
  addr ++ "-h-" ++ head

/-! ## Actor-migration interface (`top.go`) -/

/-- `actorMigrationInput`. -/
structure ActorMigrationInput where
  address : Address
  balance : BigInt
  head : Cid
  priorEpoch : ChainEpoch
  cache : Cache
  deriving DecidableEq, Repr

/-- `balanceTransferInfo`. -/
structure balanceTransferInfo where
  address : Address
  value : BigInt
  deriving DecidableEq, Repr

/-- The Go zero value of `balanceTransferInfo` (undefined address, zero
amount), produced by struct literals that omit the field. -/
def emptyTransfer : balanceTransferInfo := { address := "", value := 0 }

/-- `actorMigrationResult`.  The two miner-deletion fields default to the
Go zero values, as in the source's struct literals that omit them. -/
structure ActorMigrationResult where
  newCodeCID : CodeCID
  newHead : Cid
  minerTypeMigrationShouldDelete : Bool := false
  minerTypeMigrationBalanceTransferInfo : balanceTransferInfo := emptyTransfer
  deriving DecidableEq, Repr

/-- The `actorMigration` interface: a state migration function and the
successor code cid.  (The store each implementation reads is baked into
the instance.) -/
structure ActorMigration where
  migrateState : ActorMigrationInput → Except GoError ActorMigrationResult
  migratedCodeCID : CodeCID

/-- `nilMigrator`: preserves the head cid and returns the configured
output code cid. -/
def nilMigrator (OutCodeCID : CodeCID) : ActorMigration where
  migrateState := fun input =>
    Except.ok { newCodeCID := OutCodeCID, newHead := input.head }
  migratedCodeCID := OutCodeCID

/-! ## Cached migrator decorator (`cachedMigrator`, `top.go`) -/

namespace cachedMigrator

/-- `cachedMigrator.migrateState`: delegate to `cache.Load` under
`ActorHeadKey(address, head)`, computing the inner migrator's `newHead` on
a miss; return the inner `migratedCodeCID` with the loaded head.  The
result's deletion flag and transfer info are the Go zero values: the inner
result's `minerTypeMigrationShouldDelete` and
`minerTypeMigrationBalanceTransferInfo` are not propagated. -/
def migrateState (inner : ActorMigration) (input : ActorMigrationInput)
    (cache : Cache) : Except GoError (ActorMigrationResult × Cache) :=
  match MigrationCache.load cache (ActorHeadKey input.address input.head)
      (fun _ =>
        match inner.migrateState input with
        | Except.error e => Except.error e
        | Except.ok result => Except.ok result.newHead) with
  | Except.error e => Except.error e
  | Except.ok (newHead, cache') =>
    Except.ok ({ newCodeCID := inner.migratedCodeCID, newHead := newHead }, cache')

end cachedMigrator

/-! ## Miner migrator (the miner-migrator source file)

The miner state is fetched from the store by `store.Get(in.head)` and its
info record by `inState.GetInfo`; both fetches are modelled as already
resolved: `migrateState` receives the decoded state (with the info record
inlined).  The sectors AMT and the precommitted-sectors collection are
modelled by their lists of entries (only their lengths are inspected). -/

/-- The miner's static info record (`miner5.MinerInfo`): the fields read
by the migrator. -/
structure MinerInfo where
  Owner : Address
  WindowPoStProofType : RegisteredPoStProof
  deriving DecidableEq, Repr

/-- `miner5.State`: the fields read by the migrator, with the info record
inlined. -/
structure MinerState where
  Info : MinerInfo
  PreCommitDeposits : BigInt
  LockedFunds : BigInt
  FeeDebt : BigInt
  InitialPledge : BigInt
  Sectors : List Unit
  PreCommittedSectors : List Unit
  deriving DecidableEq, Repr

namespace minerMigrator

/-- `minerMigrator.migratedCodeCID`: the v6 StorageMiner code. -/
def migratedCodeCID : CodeCID := .StorageMinerV6

/-- `minerMigrator.migrateState`: classify the proof type; for a test
proof type enforce the zero-preconditions and flag the actor for deletion
with a balance transfer to the owner; otherwise return the head unchanged. -/
def migrateState (inState : MinerState) (input : ActorMigrationInput) :
    Except GoError ActorMigrationResult :=
  if isTestPostProofType inState.Info.WindowPoStProofType then
    if 0 < inState.PreCommitDeposits then
      Except.error ("test type miner has nonzero PreCommitDeposits at address " ++ input.address ++ ".")
    else if 0 < inState.LockedFunds then
      Except.error ("test type miner has nonzero LockedFunds at address " ++ input.address ++ ".")
    else if 0 < inState.FeeDebt then
      Except.error ("test type miner has nonzero FeeDebt at address " ++ input.address ++ ".")
    else if 0 < inState.InitialPledge then
      Except.error ("test type miner has nonzero InitialPledge at address " ++ input.address ++ ".")
    else if inState.Sectors.length ≠ 0 then
      Except.error ("test type miner has nonzero length of Sectors at address " ++ input.address ++ ".")
    else if inState.PreCommittedSectors.length ≠ 0 then
      Except.error ("test type miner has nonzero length of PrecommittedSectors at address " ++ input.address ++ ".")
    else
      Except.ok { newCodeCID := migratedCodeCID, newHead := input.head,
                  minerTypeMigrationShouldDelete := true,
                  minerTypeMigrationBalanceTransferInfo :=
                    { address := inState.Info.Owner, value := input.balance } }
  else
    Except.ok { newCodeCID := migratedCodeCID, newHead := input.head }

end minerMigrator

/-! ## Power-claim migrator (`power.go`)

The power actor's claims HAMT is modelled by the association list of its
contents (keyed by the claim's address string); loading the map with
`adt.AsMap` and re-serialising are implicit in that representation. -/

/-- `smoothing.FilterEstimate` (v5 and v6 have the same two fields; the
migration rebuilds the value through the v6 constructor). -/
structure FilterEstimate where
  PositionEstimate : BigInt
  VelocityEstimate : BigInt
  deriving DecidableEq, Repr

/-- `power.Claim` (v5 and v6 layouts agree on the fields the migrator
reads). -/
structure Claim where
  WindowPoStProofType : RegisteredPoStProof
  RawBytePower : BigInt
  QualityAdjPower : BigInt
  deriving DecidableEq, Repr

/-- The claims HAMT contents. -/
abbrev ClaimsMap := List (Address × Claim)

/-- Lookup in a claims map: first binding of the address, if any. -/
def lookupClaim : ClaimsMap → Address → Option Claim
  | [], _ => none
  | (a, c) :: m, addr => if a = addr then some c else lookupClaim m addr

/-- `power5.State`: the input power state. -/
structure power5State where
  TotalRawBytePower : BigInt
  TotalBytesCommitted : BigInt
  TotalQualityAdjPower : BigInt
  TotalQABytesCommitted : BigInt
  TotalPledgeCollateral : BigInt
  ThisEpochRawBytePower : BigInt
  ThisEpochQualityAdjPower : BigInt
  ThisEpochPledgeCollateral : BigInt
  ThisEpochQAPowerSmoothed : FilterEstimate
  MinerCount : Int
  MinerAboveMinPowerCount : Int
  CronEventQueue : Cid
  FirstCronEpoch : ChainEpoch
  Claims : ClaimsMap
  ProofValidationBatch : Option Cid
  deriving DecidableEq, Repr

/-- `power.State` (v6): the output power state; same field layout. -/
structure power6State where
  TotalRawBytePower : BigInt
  TotalBytesCommitted : BigInt
  TotalQualityAdjPower : BigInt
  TotalQABytesCommitted : BigInt
  TotalPledgeCollateral : BigInt
  ThisEpochRawBytePower : BigInt
  ThisEpochQualityAdjPower : BigInt
  ThisEpochPledgeCollateral : BigInt
  ThisEpochQAPowerSmoothed : FilterEstimate
  MinerCount : Int
  MinerAboveMinPowerCount : Int
  CronEventQueue : Cid
  FirstCronEpoch : ChainEpoch
  Claims : ClaimsMap
  ProofValidationBatch : Option Cid
  deriving DecidableEq, Repr

/-- Modelled from the spec: `builtin.ConsensusMinerMinPower` (the v6
builtin policy, which is not under `src/`).  Section 4.7 of the spec
deletes every marked test-type claim and states that test miners cannot
reach the min-power threshold, so the six test proof types carry a zero
consensus minimum power; production window proofs carry the 10 TiB
mainnet threshold. -/
def ConsensusMinerMinPower (proofType : RegisteredPoStProof) : BigInt :=
  if isTestPostProofType proofType then 0 else 10 * 2 ^ 40

/-- Remove every binding of an address from a claims map. -/
def deleteKeyAll (addr : Address) : ClaimsMap → ClaimsMap
  | [] => []
  | (k, c) :: m =>
    if k = addr then deleteKeyAll addr m else (k, c) :: deleteKeyAll addr m

/-- Modelled from the spec: `power.State.DeleteClaim` (v6 power actor
state code, not under `src/`).  Per section 4.7, deleting a marked claim
removes the miner's entry from the state's claims HAMT (the claim's power
fields are zero at every call site, so the power totals are unchanged). -/
def power6State.DeleteClaim (st : power6State) (addr : Address) : power6State :=
  { st with Claims := deleteKeyAll addr st.Claims }

/-- `store.Put` of a v6 power state: content addressing, modelled by a
deterministic encoding of the state value. -/
def putPowerState (st : power6State) : Cid :=
  "power6-" ++ reprStr st

/-- The driver's block store, restricted to what the registered migrators
read: the decoded v5 power state at a head cid. -/
abbrev Store := Cid → Option power5State

namespace powerMigrator

/-- `powerMigrator.migratedCodeCID` as written in `power.go`: it returns
`builtin.StorageMarketActorCodeID`, the v6 StorageMarket code. -/
def migratedCodeCID : CodeCID := .StorageMarketV6

/-- The `claims.ForEach` body of `powerMigrator.migrateState`, iterating
the claims read from the input state: for a test proof type, fail on
nonzero power, and when `ConsensusMinerMinPower` of the proof type is not
positive, delete the claim and decrement the miner count.
`address.NewFromString(key)` is modelled as the identity on the key. -/
def claimsLoop : power6State → ClaimsMap → Except GoError power6State
  | st, [] => Except.ok st
  | st, (key, claim) :: rest =>
    if isTestPostProofType claim.WindowPoStProofType then
      if 0 < claim.RawBytePower then
        Except.error "nonzero RawBytePower on claim from miner with test proof size. This is not good."
      else if 0 < claim.QualityAdjPower then
        Except.error "nonzero QualityAdjPower on claim from miner with test proof size. This is not good."
      else if ConsensusMinerMinPower claim.WindowPoStProofType ≤ 0 then
        let st' := (st.DeleteClaim key)
        claimsLoop { st' with MinerCount := st'.MinerCount - 1 } rest
      else
        claimsLoop st rest
    else
      claimsLoop st rest

/-- `powerMigrator.migrateState`: read the v5 state, copy it
field-for-field into a v6 state (rebuilding the smoothed estimate through
its constructor), repair the claims map with `claimsLoop`, store the new
state and return its cid under the migrator's code cid. -/
def migrateState (store : Store) (input : ActorMigrationInput) :
    Except GoError ActorMigrationResult :=
  match store input.head with
  | none => Except.error ("failed to get power state at " ++ input.head)
  | some inState =>
    let outState0 : power6State := {
      TotalRawBytePower := inState.TotalRawBytePower
      TotalBytesCommitted := inState.TotalBytesCommitted
      TotalQualityAdjPower := inState.TotalQualityAdjPower
      TotalQABytesCommitted := inState.TotalQABytesCommitted
      TotalPledgeCollateral := inState.TotalPledgeCollateral
      ThisEpochRawBytePower := inState.ThisEpochRawBytePower
      ThisEpochQualityAdjPower := inState.ThisEpochQualityAdjPower
      ThisEpochPledgeCollateral := inState.ThisEpochPledgeCollateral
      ThisEpochQAPowerSmoothed := {
        PositionEstimate := inState.ThisEpochQAPowerSmoothed.PositionEstimate
        VelocityEstimate := inState.ThisEpochQAPowerSmoothed.VelocityEstimate }
      MinerCount := inState.MinerCount
      MinerAboveMinPowerCount := inState.MinerAboveMinPowerCount
      CronEventQueue := inState.CronEventQueue
      FirstCronEpoch := inState.FirstCronEpoch
      Claims := inState.Claims
      ProofValidationBatch := inState.ProofValidationBatch }
    match claimsLoop outState0 inState.Claims with
    | Except.error e => Except.error e
    | Except.ok outState =>
      Except.ok { newCodeCID := migratedCodeCID, newHead := putPowerState outState }

end powerMigrator

/-- The power migrator packaged as an `actorMigration` instance over a
store. -/
def powerMigration (store : Store) : ActorMigration where
  migrateState := powerMigrator.migrateState store
  migratedCodeCID := powerMigrator.migratedCodeCID

/-! ## Migration driver (`MigrateStateTree`, `top.go`) -/

/-- `Config`. -/
structure Config where
  MaxWorkers : Nat
  JobQueueSize : Nat := 0
  ResultQueueSize : Nat := 0
  ProgressLogPeriod : Int := 0
  deriving DecidableEq, Repr

/-- A value of the migrations map: either a plain migrator or one wrapped
by the cached-migrator decorator (`cachedMigration(cache, m)`), whose
cache interaction the driver threads explicitly. -/
inductive tableEntry where
  | plain (m : ActorMigration)
  | cached (inner : ActorMigration)

/-- The migrations map of `MigrateStateTree` (lines 71 to 83 of `top.go`):
every v5 code is mapped to a nil migrator producing the v6 successor code,
except the StoragePower code, which is mapped to the cache-wrapped power
migrator.  The StorageMiner code is mapped to a nil migrator.  Codes
outside the map have no registered migration function.  (The deferred set
is empty, and the map has the 11 entries the startup check requires.) -/
def migrations (store : Store) : CodeCID → Option tableEntry
  | .AccountV5 => some (.plain (nilMigrator .AccountV6))
  | .CronV5 => some (.plain (nilMigrator .CronV6))
  | .InitV5 => some (.plain (nilMigrator .InitV6))
  | .MultisigV5 => some (.plain (nilMigrator .MultisigV6))
  | .PaymentChannelV5 => some (.plain (nilMigrator .PaymentChannelV6))
  | .RewardV5 => some (.plain (nilMigrator .RewardV6))
  | .StorageMarketV5 => some (.plain (nilMigrator .StorageMarketV6))
  | .StorageMinerV5 => some (.plain (nilMigrator .StorageMinerV6))
  | .StoragePowerV5 => some (.cached (powerMigration store))
  | .SystemV5 => some (.plain (nilMigrator .SystemV6))
  | .VerifiedRegistryV5 => some (.plain (nilMigrator .VerifiedRegistryV6))
  | _ => none

/-- Dispatch on a migrations-map entry, threading the cache through the
cached decorator. -/
def runEntry (entry : tableEntry) (input : ActorMigrationInput) (cache : Cache) :
    Except GoError (ActorMigrationResult × Cache) :=
  match entry with
  | .plain m =>
    match m.migrateState input with
    | Except.error e => Except.error e
    | Except.ok r => Except.ok (r, cache)
  | .cached inner => cachedMigrator.migrateState inner input cache

/-- `migrationJob`: an address with a copy of its input actor record and
the migration looked up for its code. -/
structure migrationJob where
  address : Address
  actor : Actor
  migration : tableEntry

/-- `migrationJobResult`. -/
structure migrationJobResult where
  address : Address
  actor : Actor
  minerTypeMigrationShouldDelete : Bool
  minerTypeMigrationBalanceTransferInfo : balanceTransferInfo
  deriving DecidableEq, Repr

/-- `migrationJob.run`: invoke the migration on the job's actor, wrap any
error with the actor's name and address, and assemble the result record:
`Code` and `Head` come from the migration result, `CallSeqNum`, `Balance`
and the address are unchanged; the deletion flag and transfer info are
passed through. -/
def migrationJob.run (job : migrationJob) (priorEpoch : ChainEpoch)
    (cache : Cache) : Except GoError (migrationJobResult × Cache) :=
  match runEntry job.migration
      { address := job.address, balance := job.actor.Balance,
        head := job.actor.Head, priorEpoch := priorEpoch, cache := cache }
      cache with
  | Except.error e =>
    Except.error ("state migration failed for " ++ ActorNameByCode job.actor.Code ++
      " actor, addr " ++ job.address ++ ": " ++ e)
  | Except.ok (result, cache') =>
    Except.ok ({ address := job.address,
                 actor := { Code := result.newCodeCID, Head := result.newHead,
                            CallSeqNum := job.actor.CallSeqNum,
                            Balance := job.actor.Balance },
                 minerTypeMigrationShouldDelete := result.minerTypeMigrationShouldDelete,
                 minerTypeMigrationBalanceTransferInfo := result.minerTypeMigrationBalanceTransferInfo },
               cache')

/-- The producer and worker phases, sequentialised in traversal order:
for each actor of the input tree, look up its migration (failing on an
unregistered code) and run the job.  Returns the job results in traversal
order together with the final cache. -/
def runJobs (priorEpoch : ChainEpoch) (store : Store) :
    StateTree → Cache → Except GoError (List migrationJobResult × Cache)
  | [], cache => Except.ok ([], cache)
  | (addr, actorIn) :: rest, cache =>
    match migrations store actorIn.Code with
    | none =>
      Except.error ("actor with code " ++ ActorNameByCode actorIn.Code ++
        " has no registered migration function")
    | some migration =>
      match migrationJob.run { address := addr, actor := actorIn, migration := migration }
          priorEpoch cache with
      | Except.error e => Except.error e
      | Except.ok (result, cache') =>
        match runJobs priorEpoch store rest cache' with
        | Except.error e => Except.error e
        | Except.ok (results, cache'') => Except.ok (result :: results, cache'')

/-- The single result writer: for each arriving result, either record its
balance transfer (deletion) or insert the migrated record into the output
tree. -/
def writeResults : List migrationJobResult → StateTree →
    List balanceTransferInfo → StateTree × List balanceTransferInfo
  | [], actorsOut, transfers => (actorsOut, transfers)
  | result :: rest, actorsOut, transfers =>
    if result.minerTypeMigrationShouldDelete then
      writeResults rest actorsOut
        (transfers ++ [result.minerTypeMigrationBalanceTransferInfo])
    else
      writeResults rest (SetActor actorsOut result.address result.actor) transfers

/-- The fallback recipient `f099` (the burn address), parsed by
`address.NewFromString`. -/
def f099Addr : Address := "f099"

/-- Add `value` to an actor's balance (`big.Add`). -/
def bumpBalance (actor : Actor) (value : BigInt) : Actor :=
  { actor with Balance := actor.Balance + value }

/-- One step of the balance-transfer pass: fail on a negative amount;
otherwise credit the recipient in the output tree, falling back to `f099`
when the recipient is absent and failing when `f099` is also absent. -/
def applyTransfer (actorsOut : StateTree) (bTransfer : balanceTransferInfo) :
    Except GoError StateTree :=
  if ¬ 0 ≤ bTransfer.value then
    Except.error ("deleted test miner's balance was negative and we tried to send it to address " ++
      bTransfer.address)
  else
    match GetActor actorsOut bTransfer.address with
    | some actor =>
      Except.ok (SetActor actorsOut bTransfer.address (bumpBalance actor bTransfer.value))
    | none =>
      match GetActor actorsOut f099Addr with
      | some actor =>
        Except.ok (SetActor actorsOut f099Addr (bumpBalance actor bTransfer.value))
      | none =>
        Except.error "could not find actor for the owner of the deleted miner, and then could not find f099 to send the funds to as a backup. something is very wrong here."

/-- The balance-transfer pass, in recorded order. -/
def applyTransfers : StateTree → List balanceTransferInfo → Except GoError StateTree
  | actorsOut, [] => Except.ok actorsOut
  | actorsOut, bTransfer :: rest =>
    match applyTransfer actorsOut bTransfer with
    | Except.error e => Except.error e
    | Except.ok actorsOut' => applyTransfers actorsOut' rest

/-- `MigrateStateTree`: reject a zero worker count; run all jobs; let the
writer consume the results in arrival order (`arrival` models the
nondeterministic worker completion order seen by the single writer);
apply the recorded balance transfers; flush and return the output tree. -/
def MigrateStateTree (cfg : Config)
    (arrival : List migrationJobResult → List migrationJobResult)
    (store : Store) (actorsIn : StateTree) (priorEpoch : ChainEpoch)
    (cache : Cache) : Except GoError StateTree :=
  if cfg.MaxWorkers = 0 then
    Except.error ("invalid migration config with " ++ toString cfg.MaxWorkers ++ " workers")
  else
    match runJobs priorEpoch store actorsIn cache with
    | Except.error e => Except.error e
    | Except.ok (results, _) =>
      let (actorsOut, transfers) := writeResults (arrival results) [] []
      applyTransfers actorsOut transfers

/-! ## Derived notions used by the theorems -/

/-- The output-tree entry a job result contributes (none for a deletion). -/
def resultEntry (r : migrationJobResult) : Option (Address × Actor) :=
  if r.minerTypeMigrationShouldDelete then none else some (r.address, r.actor)

/-- The transfer record a job result contributes (none unless deleted). -/
def resultTransfer (r : migrationJobResult) : Option balanceTransferInfo :=
  if r.minerTypeMigrationShouldDelete then some r.minerTypeMigrationBalanceTransferInfo
  else none

/-- The address a non-deleted job result inserts into the output tree. -/
def resultKeptAddress (r : migrationJobResult) : Option Address :=
  if r.minerTypeMigrationShouldDelete then none else some r.address

/-- Remove a list of addresses from a claims map. -/
def removeKeys (ks : List Address) (m : ClaimsMap) : ClaimsMap :=
  ks.foldl (fun m k => deleteKeyAll k m) m

/-- The addresses of the test-proof-type claims of a claims map. -/
def testClaimKeys (m : ClaimsMap) : List Address :=
  m.filterMap fun p =>
    if isTestPostProofType p.2.WindowPoStProofType then some p.1 else none

/-- Whether a claim has a test proof type. -/
def isTestClaim (p : Address × Claim) : Bool :=
  isTestPostProofType p.2.WindowPoStProofType

/-- The actor a transfer is credited to: the recipient when present in the
output tree, else the fallback `f099` when present, else nobody. -/
def routeTo (actorsOut : StateTree) (b : balanceTransferInfo) : Option Address :=
  if (GetActor actorsOut b.address).isSome then some b.address
  else if (GetActor actorsOut f099Addr).isSome then some f099Addr
  else none

/-- Total amount a list of transfers credits to one address of the output
tree. -/
def routedSum (actorsOut : StateTree) (transfers : List balanceTransferInfo)
    (a : Address) : BigInt :=
  ((transfers.filter fun b => routeTo actorsOut b = some a).map fun b => b.value).sum

/-! ## Concrete instances used by evaluations and witnesses -/

/-- Scenario B input tree: owner Account `t0100` with balance 5 and miner
`t0101` with balance 7. -/
def scenarioBTree : StateTree :=
  [("t0100", { Code := .AccountV5, Head := "bafyAcct", CallSeqNum := 0, Balance := 5 }),
   ("t0101", { Code := .StorageMinerV5, Head := "bafyMinerHead", CallSeqNum := 0, Balance := 7 })]

/-- Scenario B miner state: test window proof type `StackedDrgWindow2KiBV1`,
all economic fields zero, empty sector collections, owner `t0100`. -/
def scenarioBMinerState : MinerState :=
  { Info := { Owner := "t0100", WindowPoStProofType := .StackedDrgWindow2KiBV1 },
    PreCommitDeposits := 0, LockedFunds := 0, FeeDebt := 0, InitialPledge := 0,
    Sectors := [], PreCommittedSectors := [] }

/-- A test-proof-type miner state whose `LockedFunds` is nonzero but
negative. -/
def c4MinerState : MinerState :=
  { Info := { Owner := "t0100", WindowPoStProofType := .StackedDrgWindow2KiBV1 },
    PreCommitDeposits := 0, LockedFunds := -1, FeeDebt := 0, InitialPledge := 0,
    Sectors := [], PreCommittedSectors := [] }

/-- A test-proof-type miner state with positive `LockedFunds`. -/
def c4WitnessMinerState : MinerState :=
  { Info := { Owner := "t0100", WindowPoStProofType := .StackedDrgWindow2KiBV1 },
    PreCommitDeposits := 0, LockedFunds := 1, FeeDebt := 0, InitialPledge := 0,
    Sectors := [], PreCommittedSectors := [] }

/-- A miner state with a non-test (production) window proof type. -/
def c5NonTestMinerState : MinerState :=
  { Info := { Owner := "t0100", WindowPoStProofType := .StackedDrgWindow32GiBV1 },
    PreCommitDeposits := 0, LockedFunds := 0, FeeDebt := 0, InitialPledge := 0,
    Sectors := [], PreCommittedSectors := [] }

/-- A migration input used by concrete witnesses. -/
def witnessInput : ActorMigrationInput :=
  { address := "t0101", balance := 7, head := "bafyMinerHead", priorEpoch := 0, cache := [] }

/-- A concrete power store for the C2 witness: one zero-power test claim
(`t0101`) and one production claim (`t0200`). -/
def c2Power5State : power5State :=
  { TotalRawBytePower := 100, TotalBytesCommitted := 100, TotalQualityAdjPower := 100,
    TotalQABytesCommitted := 100, TotalPledgeCollateral := 3,
    ThisEpochRawBytePower := 100, ThisEpochQualityAdjPower := 100,
    ThisEpochPledgeCollateral := 3,
    ThisEpochQAPowerSmoothed := { PositionEstimate := 1, VelocityEstimate := 2 },
    MinerCount := 2, MinerAboveMinPowerCount := 1,
    CronEventQueue := "bafyCron", FirstCronEpoch := 0,
    Claims := [("t0101", { WindowPoStProofType := .StackedDrgWindow2KiBV1,
                           RawBytePower := 0, QualityAdjPower := 0 }),
               ("t0200", { WindowPoStProofType := .StackedDrgWindow32GiBV1,
                           RawBytePower := 100, QualityAdjPower := 100 })],
    ProofValidationBatch := none }

/-- The C2 witness store. -/
def c2Store : Store := fun c => if c = "bafyPowerHead" then some c2Power5State else none

/-- The C2 witness input. -/
def c2Input : ActorMigrationInput :=
  { address := "t04", balance := 0, head := "bafyPowerHead", priorEpoch := 0, cache := [] }

/-- An inner migrator that requests deletion and a transfer, used to
witness that the decorator drops both. -/
def c6Inner : ActorMigration where
  migrateState := fun input =>
    Except.ok { newCodeCID := .StorageMinerV6, newHead := input.head,
                minerTypeMigrationShouldDelete := true,
                minerTypeMigrationBalanceTransferInfo := { address := "t0100", value := 5 } }
  migratedCodeCID := .StorageMinerV6

/-- The job results of the Scenario B tree: both actors nil-migrated, no
deletions. -/
def c8Results : List migrationJobResult :=
  [{ address := "t0100",
     actor := { Code := .AccountV6, Head := "bafyAcct", CallSeqNum := 0, Balance := 5 },
     minerTypeMigrationShouldDelete := false,
     minerTypeMigrationBalanceTransferInfo := emptyTransfer },
   { address := "t0101",
     actor := { Code := .StorageMinerV6, Head := "bafyMinerHead", CallSeqNum := 0, Balance := 7 },
     minerTypeMigrationShouldDelete := false,
     minerTypeMigrationBalanceTransferInfo := emptyTransfer }]

/-- A concrete migration job for the C10 witness: the Scenario B owner
account under the nil account migrator. -/
def c10Job : migrationJob :=
  { address := "t0100",
    actor := { Code := .AccountV5, Head := "bafyAcct", CallSeqNum := 3, Balance := 5 },
    migration := .plain (nilMigrator .AccountV6) }

/-! ## Claim theorems -/

/-- C1 (code bug): end-to-end Scenario B.  The migrations map of
`MigrateStateTree` sends the v5 StorageMiner code to a nil migrator — the
miner migrator is never registered — so on the Scenario B tree the run
keeps miner `t0101` (balance 7, head unchanged) and leaves owner `t0100`
at balance 5, instead of deleting the miner and crediting the owner to 12.
The last conjunct shows the unregistered miner migrator itself would have
requested deletion with the balance transfer to the owner on that same
miner state. -/
theorem c1_scenarioB_miner_not_deleted :
    MigrateStateTree { MaxWorkers := 1 } (fun l => l) (fun _ => none) scenarioBTree 0 [] =
      Except.ok
        [("t0100", { Code := .AccountV6, Head := "bafyAcct", CallSeqNum := 0, Balance := 5 }),
         ("t0101", { Code := .StorageMinerV6, Head := "bafyMinerHead", CallSeqNum := 0, Balance := 7 })] ∧
    isTestPostProofType scenarioBMinerState.Info.WindowPoStProofType = true ∧
    minerMigrator.migrateState scenarioBMinerState witnessInput =
      Except.ok { newCodeCID := .StorageMinerV6, newHead := "bafyMinerHead",
                  minerTypeMigrationShouldDelete := true,
                  minerTypeMigrationBalanceTransferInfo := { address := "t0100", value := 7 } } :=
  ⟨rfl, rfl, rfl⟩

/-- C3 (code bug): `powerMigrator.migratedCodeCID` as written in `power.go`
returns the v6 StorageMarket code identifier, not the v6 StoragePower
successor code the claim (and the successor scheme of the migrations map)
requires. -/
theorem c3_power_migrated_code_is_market_code :
    powerMigrator.migratedCodeCID = CodeCID.StorageMarketV6 ∧
    powerMigrator.migratedCodeCID ≠ CodeCID.StoragePowerV6 :=
  ⟨rfl, by decide⟩

/-- C4 (amended): for a miner whose info record has a test proof type,
`minerMigrator.migrateState` returns an error exactly when one of the four
funds fields is strictly positive or one of the two sector collections is
nonempty (the source compares with `GreaterThan(big.Zero())`, so a
negative — hence nonzero — field does not fail), and every such error is
one of the six messages naming the violated field and the miner's
address. -/
theorem c4_miner_zero_preconditions (inState : MinerState) (input : ActorMigrationInput)
    (htest : isTestPostProofType inState.Info.WindowPoStProofType = true) :
    ((∃ e, minerMigrator.migrateState inState input = Except.error e) ↔
      (0 < inState.PreCommitDeposits ∨ 0 < inState.LockedFunds ∨ 0 < inState.FeeDebt ∨
       0 < inState.InitialPledge ∨ inState.Sectors ≠ [] ∨ inState.PreCommittedSectors ≠ [])) ∧
    (∀ e, minerMigrator.migrateState inState input = Except.error e →
      e ∈ ["test type miner has nonzero PreCommitDeposits at address " ++ input.address ++ ".",
           "test type miner has nonzero LockedFunds at address " ++ input.address ++ ".",
           "test type miner has nonzero FeeDebt at address " ++ input.address ++ ".",
           "test type miner has nonzero InitialPledge at address " ++ input.address ++ ".",
           "test type miner has nonzero length of Sectors at address " ++ input.address ++ ".",
           "test type miner has nonzero length of PrecommittedSectors at address " ++ input.address ++ "."]) := by
  unfold minerMigrator.migrateState
  rw [htest]
  simp only [if_true]
  split_ifs with h1 h2 h3 h4 h5 h6
  · exact ⟨⟨fun _ => Or.inl h1, fun _ => ⟨_, rfl⟩⟩, by intro e he; injection he with he; simp [← he]⟩
  · exact ⟨⟨fun _ => Or.inr (Or.inl h2), fun _ => ⟨_, rfl⟩⟩,
      by intro e he; injection he with he; simp [← he]⟩
  · exact ⟨⟨fun _ => Or.inr (Or.inr (Or.inl h3)), fun _ => ⟨_, rfl⟩⟩,
      by intro e he; injection he with he; simp [← he]⟩
  · exact ⟨⟨fun _ => Or.inr (Or.inr (Or.inr (Or.inl h4))), fun _ => ⟨_, rfl⟩⟩,
      by intro e he; injection he with he; simp [← he]⟩
  · refine ⟨⟨fun _ => Or.inr (Or.inr (Or.inr (Or.inr (Or.inl ?_)))), fun _ => ⟨_, rfl⟩⟩,
      by intro e he; injection he with he; simp [← he]⟩
    intro hnil
    exact h5 (by rw [hnil]; rfl)
  · refine ⟨⟨fun _ => Or.inr (Or.inr (Or.inr (Or.inr (Or.inr ?_)))), fun _ => ⟨_, rfl⟩⟩,
      by intro e he; injection he with he; simp [← he]⟩
    intro hnil
    exact h6 (by rw [hnil]; rfl)
  · refine ⟨⟨fun he => absurd he (by simp), ?_⟩, by intro e he; cases he⟩
    rintro (h | h | h | h | h | h)
    · exact absurd h h1
    · exact absurd h h2
    · exact absurd h h3
    · exact absurd h h4
    · exact absurd (List.length_eq_zero.mp (by omega)) h
    · exact absurd (List.length_eq_zero.mp (by omega)) h

/-- C4 counterexample: the claim as stated (error exactly when a field is
nonzero) fails on a test-type miner whose `LockedFunds` is `-1`: the field
is nonzero, yet `migrateState` succeeds (and even requests deletion). -/
theorem c4_counterexample_negative_locked_funds :
    c4MinerState.LockedFunds ≠ 0 ∧
    isTestPostProofType c4MinerState.Info.WindowPoStProofType = true ∧
    minerMigrator.migrateState c4MinerState witnessInput =
      Except.ok { newCodeCID := .StorageMinerV6, newHead := "bafyMinerHead",
                  minerTypeMigrationShouldDelete := true,
                  minerTypeMigrationBalanceTransferInfo := { address := "t0100", value := 7 } } :=
  ⟨by decide, rfl, rfl⟩

/-- C4 witness: a concrete positive `LockedFunds` makes the amended
equivalence produce an error. -/
theorem c4_witness_positive_locked_funds :
    ∃ e, minerMigrator.migrateState c4WitnessMinerState witnessInput = Except.error e :=
  (c4_miner_zero_preconditions c4WitnessMinerState witnessInput rfl).1.mpr
    (Or.inr (Or.inl (by decide)))

/-- C5: for a test-proof-type miner satisfying the zero-preconditions,
`minerMigrator.migrateState` returns the head unchanged with
`should_delete = true` and a transfer of the input balance to the
miner-info owner; for a non-test proof type it returns the head unchanged
with `should_delete = false`. -/
theorem c5_miner_migrator_postcondition (inState : MinerState) (input : ActorMigrationInput) :
    (isTestPostProofType inState.Info.WindowPoStProofType = true →
      inState.PreCommitDeposits = 0 → inState.LockedFunds = 0 → inState.FeeDebt = 0 →
      inState.InitialPledge = 0 → inState.Sectors = [] → inState.PreCommittedSectors = [] →
      minerMigrator.migrateState inState input =
        Except.ok { newCodeCID := minerMigrator.migratedCodeCID, newHead := input.head,
                    minerTypeMigrationShouldDelete := true,
                    minerTypeMigrationBalanceTransferInfo :=
                      { address := inState.Info.Owner, value := input.balance } }) ∧
    (isTestPostProofType inState.Info.WindowPoStProofType = false →
      minerMigrator.migrateState inState input =
        Except.ok { newCodeCID := minerMigrator.migratedCodeCID, newHead := input.head,
                    minerTypeMigrationShouldDelete := false,
                    minerTypeMigrationBalanceTransferInfo := emptyTransfer }) := by
  constructor
  · intro ht h1 h2 h3 h4 h5 h6
    simp [minerMigrator.migrateState, ht, h1, h2, h3, h4, h5, h6]
  · intro ht
    simp [minerMigrator.migrateState, ht]

/-- C5 witness: the postcondition evaluated on the Scenario B miner state
(test type, deletion with transfer) and on a 32 GiB production miner
(kept). -/
theorem c5_witness_concrete_miners :
    minerMigrator.migrateState scenarioBMinerState witnessInput =
      Except.ok { newCodeCID := minerMigrator.migratedCodeCID, newHead := witnessInput.head,
                  minerTypeMigrationShouldDelete := true,
                  minerTypeMigrationBalanceTransferInfo :=
                    { address := scenarioBMinerState.Info.Owner, value := witnessInput.balance } } ∧
    minerMigrator.migrateState c5NonTestMinerState witnessInput =
      Except.ok { newCodeCID := minerMigrator.migratedCodeCID, newHead := witnessInput.head,
                  minerTypeMigrationShouldDelete := false,
                  minerTypeMigrationBalanceTransferInfo := emptyTransfer } :=
  ⟨(c5_miner_migrator_postcondition scenarioBMinerState witnessInput).1 rfl rfl rfl rfl rfl rfl rfl,
   (c5_miner_migrator_postcondition c5NonTestMinerState witnessInput).2 rfl⟩

/-! ### Claims-map repair lemmas (power migrator) -/

/-- The modelled consensus minimum power of a test proof type is zero. -/
theorem consensusMinerMinPower_of_test {p : RegisteredPoStProof}
    (h : isTestPostProofType p = true) : ConsensusMinerMinPower p = 0 := by
  simp [ConsensusMinerMinPower, h]

/-- Lookup after removing one address from a claims map. -/
theorem lookupClaim_deleteKeyAll (addr b : Address) (m : ClaimsMap) :
    lookupClaim (deleteKeyAll addr m) b = if b = addr then none else lookupClaim m b := by
  induction m with
  | nil => by_cases hb : b = addr <;> simp [deleteKeyAll, lookupClaim, hb]
  | cons p m ih =>
    obtain ⟨k, c⟩ := p
    by_cases hk : k = addr <;> by_cases hkb : k = b <;>
      simp only [deleteKeyAll, lookupClaim, hk, hkb, if_true, if_false, ih] <;>
      simp_all [lookupClaim]

/-- Lookup after removing a list of addresses from a claims map. -/
theorem lookupClaim_removeKeys (ks : List Address) (m : ClaimsMap) (b : Address) :
    lookupClaim (removeKeys ks m) b = if b ∈ ks then none else lookupClaim m b := by
  induction ks generalizing m with
  | nil => simp [removeKeys]
  | cons k ks ih =>
    show lookupClaim (removeKeys ks (deleteKeyAll k m)) b = _
    rw [ih]
    by_cases hb : b ∈ ks
    · simp [hb]
    · by_cases hbk : b = k <;> simp [hb, hbk, lookupClaim_deleteKeyAll]

/-- A test claim's address is among the test-claim keys. -/
theorem mem_testClaimKeys {p : Address × Claim} {m : ClaimsMap}
    (hp : p ∈ m) (ht : isTestClaim p = true) : p.1 ∈ testClaimKeys m := by
  unfold isTestClaim at ht
  exact List.mem_filterMap.mpr ⟨p, hp, by simp [ht]⟩

/-- The `claims.ForEach` loop on claims whose test entries all carry zero
power: it succeeds, removes exactly the test-claim keys from the state's
claims map, and decrements the miner count once per test claim. -/
theorem claimsLoop_ok (L : ClaimsMap) :
    ∀ st : power6State,
    (∀ p ∈ L, isTestClaim p = true → p.2.RawBytePower = 0 ∧ p.2.QualityAdjPower = 0) →
    powerMigrator.claimsLoop st L =
      Except.ok { st with
                  Claims := removeKeys (testClaimKeys L) st.Claims,
                  MinerCount := st.MinerCount - ((L.filter isTestClaim).length : Int) } := by
  induction L with
  | nil =>
    intro st _
    simp [powerMigrator.claimsLoop, removeKeys, testClaimKeys]
  | cons p L ih =>
    intro st hz
    obtain ⟨key, claim⟩ := p
    by_cases ht : isTestPostProofType claim.WindowPoStProofType
    · have hz0 := hz (key, claim) (List.mem_cons_self _ _) (by simpa [isTestClaim] using ht)
      have hraw : claim.RawBytePower = 0 := by simpa using hz0.1
      have hqa : claim.QualityAdjPower = 0 := by simpa using hz0.2
      have hcm : ConsensusMinerMinPower claim.WindowPoStProofType = 0 :=
        consensusMinerMinPower_of_test ht
      rw [show powerMigrator.claimsLoop st ((key, claim) :: L) =
          powerMigrator.claimsLoop
            { (st.DeleteClaim key) with MinerCount := (st.DeleteClaim key).MinerCount - 1 } L by
        simp [powerMigrator.claimsLoop, ht, hraw, hqa, hcm]]
      rw [ih _ (fun q hq htq => hz q (List.mem_cons_of_mem _ hq) htq)]
      have hkeys : testClaimKeys ((key, claim) :: L) = key :: testClaimKeys L := by
        simp [testClaimKeys, ht]
      have hfil : List.filter isTestClaim ((key, claim) :: L) =
          (key, claim) :: List.filter isTestClaim L := by
        simp [isTestClaim, ht]
      rw [hkeys, hfil]
      refine congrArg Except.ok ?_
      have harith : st.MinerCount - 1 - ((List.filter isTestClaim L).length : Int) =
          st.MinerCount - (((key, claim) :: List.filter isTestClaim L).length : Int) := by
        push_cast [List.length_cons]
        ring
      simp only [power6State.DeleteClaim, removeKeys, List.foldl_cons]
      rw [← harith]
    · have hkeys : testClaimKeys ((key, claim) :: L) = testClaimKeys L := by
        simp [testClaimKeys, ht]
      have hfil : List.filter isTestClaim ((key, claim) :: L) = List.filter isTestClaim L := by
        simp [isTestClaim, ht]
      rw [show powerMigrator.claimsLoop st ((key, claim) :: L) =
          powerMigrator.claimsLoop st L by simp [powerMigrator.claimsLoop, ht]]
      rw [ih _ (fun q hq htq => hz q (List.mem_cons_of_mem _ hq) htq), hkeys, hfil]

/-- C2 (spec-modelled externals): for every claim of the power actor's
claim map whose proof type is a test proof type (all of which carry zero
power), the power state stored by the power migrator has no claim-map
entry at that miner's address, and its `MinerCount` is the input
`MinerCount` minus the number of deleted (test-type) claims.
`power.State.DeleteClaim` and `builtin.ConsensusMinerMinPower` are v6
actors code outside `src/`, modelled from the spec. -/
theorem c2_power_claim_map_repair (store : Store) (input : ActorMigrationInput)
    (inState : power5State) (hst : store input.head = some inState)
    (hzero : ∀ p ∈ inState.Claims, isTestClaim p = true →
      p.2.RawBytePower = 0 ∧ p.2.QualityAdjPower = 0) :
    ∃ outState : power6State,
      powerMigrator.migrateState store input =
        Except.ok { newCodeCID := powerMigrator.migratedCodeCID,
                    newHead := putPowerState outState } ∧
      (∀ p ∈ inState.Claims, isTestClaim p = true →
        lookupClaim outState.Claims p.1 = none) ∧
      outState.MinerCount =
        inState.MinerCount - ((inState.Claims.filter isTestClaim).length : Int) := by
  unfold powerMigrator.migrateState
  rw [hst]
  dsimp only
  rw [claimsLoop_ok inState.Claims _ hzero]
  refine ⟨_, rfl, ?_, rfl⟩
  intro p hp ht
  rw [lookupClaim_removeKeys]
  simp [mem_testClaimKeys hp ht]

/-- C2 witness: the repair theorem applied to the concrete power state. -/
theorem c2_witness_concrete_power_state :
    ∃ outState : power6State,
      powerMigrator.migrateState c2Store c2Input =
        Except.ok { newCodeCID := powerMigrator.migratedCodeCID,
                    newHead := putPowerState outState } ∧
      (∀ p ∈ c2Power5State.Claims, isTestClaim p = true →
        lookupClaim outState.Claims p.1 = none) ∧
      outState.MinerCount =
        c2Power5State.MinerCount -
          ((c2Power5State.Claims.filter isTestClaim).length : Int) :=
  c2_power_claim_map_repair c2Store c2Input c2Power5State rfl (by decide)

/-- C6: whenever the cached-migrator decorator succeeds, its result's
code cid is the inner migrator's `migratedCodeCID`, its head is exactly
the value produced by `cache.Load` under `ActorHeadKey(address, head)`
(together with the updated cache), its deletion flag is `false` and its
transfer info is the zero value — whatever the inner migrator returned
for those two fields. -/
theorem c6_cached_migrator_non_propagation (inner : ActorMigration)
    (input : ActorMigrationInput) (cache : Cache)
    (res : ActorMigrationResult) (cache' : Cache)
    (h : cachedMigrator.migrateState inner input cache = Except.ok (res, cache')) :
    res.newCodeCID = inner.migratedCodeCID ∧
    res.minerTypeMigrationShouldDelete = false ∧
    res.minerTypeMigrationBalanceTransferInfo = emptyTransfer ∧
    MigrationCache.load cache (ActorHeadKey input.address input.head)
        (fun _ =>
          match inner.migrateState input with
          | Except.error e => Except.error e
          | Except.ok result => Except.ok result.newHead) =
      Except.ok (res.newHead, cache') := by
  unfold cachedMigrator.migrateState at h
  split at h
  · cases h
  · next newHead cache'' heq =>
    simp only [Except.ok.injEq, Prod.mk.injEq] at h
    obtain ⟨h1, h2⟩ := h
    subst h2
    rw [← h1, heq]
    exact ⟨rfl, rfl, rfl, rfl⟩

/-- C6 witness: wrapping `c6Inner` (which requests deletion) on a cold
cache yields a result with the inner code cid, the loaded head, no
deletion and the empty transfer. -/
theorem c6_witness_deletion_not_propagated :
    ({ newCodeCID := .StorageMinerV6, newHead := "bafyMinerHead" } : ActorMigrationResult).newCodeCID =
      c6Inner.migratedCodeCID ∧
    ({ newCodeCID := .StorageMinerV6, newHead := "bafyMinerHead" } : ActorMigrationResult).minerTypeMigrationShouldDelete =
      false ∧
    ({ newCodeCID := .StorageMinerV6, newHead := "bafyMinerHead" } : ActorMigrationResult).minerTypeMigrationBalanceTransferInfo =
      emptyTransfer ∧
    MigrationCache.load [] (ActorHeadKey witnessInput.address witnessInput.head)
        (fun _ =>
          match c6Inner.migrateState witnessInput with
          | Except.error e => Except.error e
          | Except.ok result => Except.ok result.newHead) =
      Except.ok
        (({ newCodeCID := .StorageMinerV6, newHead := "bafyMinerHead" } : ActorMigrationResult).newHead,
         [(ActorHeadKey "t0101" "bafyMinerHead", "bafyMinerHead")]) :=
  c6_cached_migrator_non_propagation c6Inner witnessInput []
    { newCodeCID := .StorageMinerV6, newHead := "bafyMinerHead" }
    [(ActorHeadKey "t0101" "bafyMinerHead", "bafyMinerHead")] rfl

/-- C7: one step of the balance-transfer pass.  A negative amount is
fatal; a non-negative amount is added to the recipient's balance when the
recipient is in the output tree; otherwise it is added to the fallback
actor `f099`'s balance; and the step fails only when the fallback is also
absent. -/
theorem c7_balance_transfer_pass (actorsOut : StateTree) (bTransfer : balanceTransferInfo) :
    (bTransfer.value < 0 → ∃ e, applyTransfer actorsOut bTransfer = Except.error e) ∧
    (0 ≤ bTransfer.value → ∀ actor, GetActor actorsOut bTransfer.address = some actor →
      applyTransfer actorsOut bTransfer =
        Except.ok (SetActor actorsOut bTransfer.address (bumpBalance actor bTransfer.value))) ∧
    (0 ≤ bTransfer.value → GetActor actorsOut bTransfer.address = none →
      ∀ actor, GetActor actorsOut f099Addr = some actor →
      applyTransfer actorsOut bTransfer =
        Except.ok (SetActor actorsOut f099Addr (bumpBalance actor bTransfer.value))) ∧
    (GetActor actorsOut bTransfer.address = none → GetActor actorsOut f099Addr = none →
      ∃ e, applyTransfer actorsOut bTransfer = Except.error e) := by
  refine ⟨?_, ?_, ?_, ?_⟩
  · intro hneg
    refine ⟨"deleted test miner's balance was negative and we tried to send it to address " ++
      bTransfer.address, ?_⟩
    simp [applyTransfer, not_le.mpr hneg]
  · intro hpos actor hget
    simp [applyTransfer, hpos, hget]
  · intro hpos hnone actor hget
    simp [applyTransfer, hpos, hnone, hget]
  · intro hnone hfnone
    by_cases hv : 0 ≤ bTransfer.value
    · refine ⟨"could not find actor for the owner of the deleted miner, and then could not find f099 to send the funds to as a backup. something is very wrong here.", ?_⟩
      simp [applyTransfer, hv, hnone, hfnone]
    · refine ⟨"deleted test miner's balance was negative and we tried to send it to address " ++
        bTransfer.address, ?_⟩
      simp [applyTransfer, hv]

/-- C7 witness: crediting a present recipient on a concrete tree. -/
theorem c7_witness_present_recipient :
    applyTransfer [("t0100", { Code := .AccountV6, Head := "bafyAcct", CallSeqNum := 0, Balance := 5 })]
        { address := "t0100", value := 7 } =
      Except.ok
        (SetActor [("t0100", { Code := .AccountV6, Head := "bafyAcct", CallSeqNum := 0, Balance := 5 })]
          "t0100"
          (bumpBalance { Code := .AccountV6, Head := "bafyAcct", CallSeqNum := 0, Balance := 5 } 7)) :=
  (c7_balance_transfer_pass
      [("t0100", { Code := .AccountV6, Head := "bafyAcct", CallSeqNum := 0, Balance := 5 })]
      { address := "t0100", value := 7 }).2.1 (by decide) _ rfl

/-- C10: whenever a migration job succeeds, the result keeps the job's
address and the input actor's `CallSeqNum` and `Balance`, and only `Code`
and `Head` come from the migration output. -/
theorem c10_job_run_frame (job : migrationJob) (priorEpoch : ChainEpoch) (cache : Cache)
    (res : migrationJobResult) (cache' : Cache)
    (h : migrationJob.run job priorEpoch cache = Except.ok (res, cache')) :
    res.address = job.address ∧
    res.actor.CallSeqNum = job.actor.CallSeqNum ∧
    res.actor.Balance = job.actor.Balance ∧
    ∃ mr : ActorMigrationResult,
      runEntry job.migration
          { address := job.address, balance := job.actor.Balance, head := job.actor.Head,
            priorEpoch := priorEpoch, cache := cache } cache =
        Except.ok (mr, cache') ∧
      res.actor.Code = mr.newCodeCID ∧ res.actor.Head = mr.newHead ∧
      res.minerTypeMigrationShouldDelete = mr.minerTypeMigrationShouldDelete ∧
      res.minerTypeMigrationBalanceTransferInfo = mr.minerTypeMigrationBalanceTransferInfo := by
  unfold migrationJob.run at h
  split at h
  · cases h
  · next result cache'' heq =>
    simp only [Except.ok.injEq, Prod.mk.injEq] at h
    obtain ⟨h1, h2⟩ := h
    subst h2
    rw [← h1]
    exact ⟨rfl, rfl, rfl, result, heq, rfl, rfl, rfl, rfl⟩

/-! ### State-tree association-list lemmas (for the cardinality and
determinism claims) -/

/-- Lookup at the head key. -/
theorem getActor_cons_self (k : Address) (x : Actor) (t : StateTree) :
    GetActor ((k, x) :: t) k = some x := by
  simp [GetActor]

/-- Lookup skips a different head key. -/
theorem getActor_cons_ne {k b : Address} (x : Actor) (t : StateTree) (h : ¬ k = b) :
    GetActor ((k, x) :: t) b = GetActor t b := by
  simp [GetActor, h]

/-- Lookup after `SetActor`. -/
theorem getActor_setActor (t : StateTree) (a : Address) (act : Actor) (b : Address) :
    GetActor (SetActor t a act) b = if a = b then some act else GetActor t b := by
  induction t with
  | nil => by_cases hb : a = b <;> simp [SetActor, GetActor, hb]
  | cons p t ih =>
    obtain ⟨k, x⟩ := p
    by_cases hk : k = a
    · subst hk
      by_cases hb : k = b
      · subst hb
        simp [SetActor, getActor_cons_self]
      · rw [show SetActor ((k, x) :: t) k act = (k, act) :: t by simp [SetActor]]
        rw [getActor_cons_ne _ _ hb, getActor_cons_ne _ _ hb, if_neg hb]
    · rw [show SetActor ((k, x) :: t) a act = (k, x) :: SetActor t a act by simp [SetActor, hk]]
      by_cases hb : k = b
      · subst hb
        have hab : ¬ a = k := fun h => hk h.symm
        rw [getActor_cons_self, getActor_cons_self, if_neg hab]
      · rw [getActor_cons_ne _ _ hb, getActor_cons_ne _ _ hb, ih]

/-- An address is missing from a tree exactly when lookup returns `none`. -/
theorem getActor_eq_none_iff {t : StateTree} {a : Address} :
    GetActor t a = none ↔ a ∉ t.map Prod.fst := by
  induction t with
  | nil => simp [GetActor]
  | cons p t ih =>
    obtain ⟨k, x⟩ := p
    by_cases hk : k = a
    · subst hk
      simp [getActor_cons_self]
    · have hak : ¬ a = k := fun h => hk h.symm
      rw [getActor_cons_ne _ _ hk]
      simp [ih, hak]

/-- `SetActor` at an absent address appends the binding. -/
theorem setActor_of_not_mem {t : StateTree} {a : Address} (act : Actor)
    (h : a ∉ t.map Prod.fst) : SetActor t a act = t ++ [(a, act)] := by
  induction t with
  | nil => simp [SetActor]
  | cons p t ih =>
    obtain ⟨k, x⟩ := p
    simp only [List.map_cons, List.mem_cons] at h
    push_neg at h
    have hk : ¬ k = a := fun hh => h.1 hh.symm
    simp [SetActor, hk, ih h.2]

/-- `SetActor` at a present address keeps the key list. -/
theorem keys_setActor_of_mem {t : StateTree} {a : Address} (act : Actor)
    (h : a ∈ t.map Prod.fst) : (SetActor t a act).map Prod.fst = t.map Prod.fst := by
  induction t with
  | nil => simp at h
  | cons p t ih =>
    obtain ⟨k, x⟩ := p
    by_cases hk : k = a
    · simp [SetActor, hk]
    · simp only [List.map_cons, List.mem_cons] at h
      rcases h with h | h
      · exact absurd h.symm hk
      · simp [SetActor, hk, ih h]

/-- With distinct keys, lookup agrees with membership. -/
theorem getActor_eq_some_iff : ∀ {t : StateTree}, (t.map Prod.fst).Nodup →
    ∀ {a : Address} {x : Actor}, (GetActor t a = some x ↔ (a, x) ∈ t)
  | [], _, a, x => by simp [GetActor]
  | (k, y) :: t, hnd, a, x => by
    simp only [List.map_cons, List.nodup_cons] at hnd
    by_cases hk : k = a
    · subst hk
      rw [getActor_cons_self]
      simp only [Option.some.injEq, List.mem_cons, Prod.mk.injEq, true_and]
      constructor
      · intro h
        exact Or.inl h.symm
      · rintro (h | hmem)
        · exact h.symm
        · exact absurd (List.mem_map_of_mem Prod.fst hmem) hnd.1
    · rw [getActor_cons_ne _ _ hk, getActor_eq_some_iff hnd.2]
      simp only [List.mem_cons, Prod.mk.injEq]
      constructor
      · exact Or.inr
      · rintro (⟨h, -⟩ | hmem)
        · exact absurd h.symm hk
        · exact hmem

/-- Permuting a tree with distinct keys does not change lookups. -/
theorem getActor_congr_perm {t₁ t₂ : StateTree} (hp : t₁ ~ t₂)
    (hnd : (t₁.map Prod.fst).Nodup) (a : Address) : GetActor t₁ a = GetActor t₂ a := by
  have hnd₂ : (t₂.map Prod.fst).Nodup := ((hp.map Prod.fst).nodup_iff).mp hnd
  cases hg : GetActor t₁ a with
  | none =>
    symm
    rw [getActor_eq_none_iff] at hg ⊢
    exact fun hmem => hg (((hp.map Prod.fst).mem_iff).mpr hmem)
  | some x =>
    symm
    rw [getActor_eq_some_iff hnd₂]
    exact hp.mem_iff.mp ((getActor_eq_some_iff hnd).mp hg)

/-- Trees with distinct keys, permuted key lists and equal lookups are
permutations of each other. -/
theorem perm_of_getActor_eq : ∀ {t₁ t₂ : StateTree},
    (t₁.map Prod.fst).Nodup → t₁.map Prod.fst ~ t₂.map Prod.fst →
    (∀ a, GetActor t₁ a = GetActor t₂ a) → t₁ ~ t₂
  | [], t₂, _, hk, _ => by
    have h2 : t₂.map Prod.fst = [] := hk.symm.eq_nil
    rw [List.map_eq_nil_iff.mp h2]
  | (a, x) :: r, t₂, hnd, hk, hget => by
    have hnd₂ : (t₂.map Prod.fst).Nodup := (hk.nodup_iff).mp hnd
    have hmem : (a, x) ∈ t₂ := by
      rw [← getActor_eq_some_iff hnd₂, ← hget a, getActor_cons_self]
    obtain ⟨e, hperm₂⟩ : ∃ e, t₂ ~ (a, x) :: e := ⟨_, List.perm_cons_erase hmem⟩
    simp only [List.map_cons, List.nodup_cons] at hnd
    have hkeys₂ : t₂.map Prod.fst ~ a :: e.map Prod.fst := by
      simpa using hperm₂.map Prod.fst
    have hkeysr : r.map Prod.fst ~ e.map Prod.fst :=
      ((hk.trans hkeys₂).cons_inv)
    have hndE : a ∉ e.map Prod.fst ∧ (e.map Prod.fst).Nodup := by
      have hcons : (a :: e.map Prod.fst).Nodup := (hkeys₂.nodup_iff).mp hnd₂
      simpa [List.nodup_cons] using hcons
    have hgetr : ∀ b, GetActor r b = GetActor e b := by
      intro b
      by_cases hb : b = a
      · subst hb
        rw [getActor_eq_none_iff.mpr hnd.1, eq_comm, getActor_eq_none_iff]
        exact hndE.1
      · have hab : ¬ a = b := fun h => hb h.symm
        have h1 : GetActor ((a, x) :: r) b = GetActor r b := getActor_cons_ne _ _ hab
        have h2 : GetActor t₂ b = GetActor ((a, x) :: e) b :=
          getActor_congr_perm hperm₂ hnd₂ b
        have h3 : GetActor ((a, x) :: e) b = GetActor e b := getActor_cons_ne _ _ hab
        rw [← h1, hget b, h2, h3]
    have ih : r ~ e := perm_of_getActor_eq hnd.2 hkeysr hgetr
    exact (ih.cons (a, x)).trans hperm₂.symm

/-! ### Balance-transfer-pass lemmas -/

/-- Adding zero to a balance is the identity. -/
theorem bumpBalance_zero (act : Actor) : bumpBalance act 0 = act := by
  cases act
  simp [bumpBalance]

/-- Balance additions compose. -/
theorem bumpBalance_bumpBalance (act : Actor) (v w : BigInt) :
    bumpBalance (bumpBalance act v) w = bumpBalance act (v + w) := by
  cases act
  simp [bumpBalance, add_assoc]

/-- A present lookup forces key membership. -/
theorem mem_keys_of_getActor_some {t : StateTree} {a : Address} {x : Actor}
    (h : GetActor t a = some x) : a ∈ t.map Prod.fst := by
  by_contra hn
  rw [getActor_eq_none_iff.mpr hn] at h
  cases h

/-- What one transfer step does to every lookup: the routed recipient is
credited, everything else is unchanged. -/
theorem applyTransfer_ok_getActor {t t' : StateTree} {b : balanceTransferInfo}
    (h : applyTransfer t b = Except.ok t') (a : Address) :
    GetActor t' a =
      (GetActor t a).map fun act =>
        bumpBalance act (if routeTo t b = some a then b.value else 0) := by
  unfold applyTransfer at h
  split at h
  · cases h
  · split at h
    · next actor hget =>
      injection h with h
      subst h
      have hroute : routeTo t b = some b.address := by simp [routeTo, hget]
      rw [getActor_setActor, hroute]
      by_cases hab : b.address = a
      · subst hab
        simp [hget]
      · have hne : ¬ (some b.address = some a) := by simpa using hab
        rw [if_neg hab, if_neg hne]
        cases GetActor t a <;> simp [bumpBalance_zero]
    · next hget =>
      split at h
      · next actor hfget =>
        injection h with h
        subst h
        have hroute : routeTo t b = some f099Addr := by simp [routeTo, hget, hfget]
        rw [getActor_setActor, hroute]
        by_cases hfa : f099Addr = a
        · subst hfa
          simp [hfget]
        · have hne : ¬ (some f099Addr = some a) := by simpa using hfa
          rw [if_neg hfa, if_neg hne]
          cases GetActor t a <;> simp [bumpBalance_zero]
      · cases h

/-- One transfer step keeps the key list. -/
theorem applyTransfer_ok_keys {t t' : StateTree} {b : balanceTransferInfo}
    (h : applyTransfer t b = Except.ok t') : t'.map Prod.fst = t.map Prod.fst := by
  unfold applyTransfer at h
  split at h
  · cases h
  · split at h
    · next actor hget =>
      injection h with h
      subst h
      exact keys_setActor_of_mem _ (mem_keys_of_getActor_some hget)
    · next hget =>
      split at h
      · next actor hfget =>
        injection h with h
        subst h
        exact keys_setActor_of_mem _ (mem_keys_of_getActor_some hfget)
      · cases h

/-- One transfer step keeps presence of every address. -/
theorem applyTransfer_ok_isSome {t t' : StateTree} {b : balanceTransferInfo}
    (h : applyTransfer t b = Except.ok t') (a : Address) :
    (GetActor t' a).isSome = (GetActor t a).isSome := by
  rw [applyTransfer_ok_getActor h a]
  cases GetActor t a <;> simp

/-- Routing is determined by presence alone. -/
theorem routeTo_congr {t₁ t₂ : StateTree}
    (h : ∀ a, (GetActor t₁ a).isSome = (GetActor t₂ a).isSome)
    (b : balanceTransferInfo) : routeTo t₁ b = routeTo t₂ b := by
  unfold routeTo
  rw [h b.address, h f099Addr]

/-- No transfers credit nothing. -/
theorem routedSum_nil (t : StateTree) (a : Address) : routedSum t [] a = 0 := rfl

/-- Splitting the routed sum at the head transfer. -/
theorem routedSum_cons (t : StateTree) (b : balanceTransferInfo)
    (ts : List balanceTransferInfo) (a : Address) :
    routedSum t (b :: ts) a =
      (if routeTo t b = some a then b.value else 0) + routedSum t ts a := by
  unfold routedSum
  by_cases hb : routeTo t b = some a <;> simp [List.filter_cons, hb]

/-- The routed sum only depends on the routing function and the multiset
of transfers. -/
theorem routedSum_congr {t₁ t₂ : StateTree}
    (hroute : ∀ b, routeTo t₁ b = routeTo t₂ b)
    {ts₁ ts₂ : List balanceTransferInfo} (hp : ts₁ ~ ts₂) (a : Address) :
    routedSum t₁ ts₁ a = routedSum t₂ ts₂ a := by
  unfold routedSum
  have h1 : ts₁.filter (fun b => decide (routeTo t₁ b = some a)) =
      ts₁.filter (fun b => decide (routeTo t₂ b = some a)) :=
    List.filter_congr fun b _ => by rw [hroute b]
  rw [h1]
  exact ((hp.filter _).map _).sum_eq

/-- The key list survives the whole balance-transfer pass. -/
theorem applyTransfers_ok_keys : ∀ {ts : List balanceTransferInfo} {t u : StateTree},
    applyTransfers t ts = Except.ok u → u.map Prod.fst = t.map Prod.fst
  | [], t, u, h => by
    unfold applyTransfers at h
    injection h with h
    rw [h]
  | b :: ts, t, u, h => by
    unfold applyTransfers at h
    split at h
    · cases h
    · next t' heq =>
      exact (applyTransfers_ok_keys h).trans (applyTransfer_ok_keys heq)

/-- What the whole balance-transfer pass does to every lookup: each
present actor is credited with the sum of the amounts routed to it. -/
theorem applyTransfers_ok_getActor : ∀ {ts : List balanceTransferInfo} {t u : StateTree},
    applyTransfers t ts = Except.ok u →
    ∀ a, GetActor u a = (GetActor t a).map fun act => bumpBalance act (routedSum t ts a)
  | [], t, u, h, a => by
    unfold applyTransfers at h
    injection h with h
    subst h
    rw [routedSum_nil]
    cases GetActor t a <;> simp [bumpBalance_zero]
  | b :: ts, t, u, h, a => by
    unfold applyTransfers at h
    split at h
    · cases h
    · next t' heq =>
      have ih := applyTransfers_ok_getActor h a
      have hroute : ∀ c, routeTo t' c = routeTo t c :=
        routeTo_congr fun x => applyTransfer_ok_isSome heq x
      have hsum : routedSum t' ts a = routedSum t ts a :=
        routedSum_congr hroute (List.Perm.refl ts) a
      rw [ih, applyTransfer_ok_getActor heq a, routedSum_cons]
      cases GetActor t a <;> simp [bumpBalance_bumpBalance, hsum]

/-! ### Writer and job-runner lemmas -/

/-- A successful job keeps its address. -/
theorem migrationJob_run_address {job : migrationJob} {priorEpoch : ChainEpoch}
    {cache : Cache} {res : migrationJobResult} {cache' : Cache}
    (h : migrationJob.run job priorEpoch cache = Except.ok (res, cache')) :
    res.address = job.address := by
  unfold migrationJob.run at h
  split at h
  · cases h
  · next result cache'' heq =>
    simp only [Except.ok.injEq, Prod.mk.injEq] at h
    rw [← h.1]

/-- The job results carry exactly the input tree's addresses, in traversal
order. -/
theorem runJobs_addresses {priorEpoch : ChainEpoch} {store : Store} :
    ∀ {tree : StateTree} {cache : Cache} {rs : List migrationJobResult} {cache' : Cache},
    runJobs priorEpoch store tree cache = Except.ok (rs, cache') →
    rs.map (fun r => r.address) = tree.map Prod.fst
  | [], cache, rs, cache', h => by
    unfold runJobs at h
    simp only [Except.ok.injEq, Prod.mk.injEq] at h
    rw [← h.1]
    rfl
  | (addr, actorIn) :: rest, cache, rs, cache', h => by
    unfold runJobs at h
    split at h
    · cases h
    · next migration hmig =>
      split at h
      · cases h
      · next result cache₁ hjob =>
        split at h
        · cases h
        · next results cache₂ hrest =>
          simp only [Except.ok.injEq, Prod.mk.injEq] at h
          rw [← h.1]
          simp only [List.map_cons]
          rw [migrationJob_run_address hjob, runJobs_addresses hrest]

/-- The writer on an arrival list whose kept addresses are fresh and
distinct: it appends exactly the non-deleted entries to the tree and the
deleted results' transfers to the transfer list, in arrival order. -/
theorem writeResults_spec : ∀ (rs : List migrationJobResult) (t : StateTree)
    (ts : List balanceTransferInfo),
    (t.map Prod.fst ++ rs.filterMap resultKeptAddress).Nodup →
    writeResults rs t ts = (t ++ rs.filterMap resultEntry, ts ++ rs.filterMap resultTransfer)
  | [], t, ts, _ => by simp [writeResults]
  | r :: rs, t, ts, hnd => by
    by_cases hd : r.minerTypeMigrationShouldDelete
    · rw [show writeResults (r :: rs) t ts =
          writeResults rs t (ts ++ [r.minerTypeMigrationBalanceTransferInfo]) by
        simp [writeResults, hd]]
      rw [writeResults_spec rs t _ (by simpa [resultKeptAddress, hd] using hnd)]
      simp [resultEntry, resultTransfer, hd]
    · have hfm : (r :: rs).filterMap resultKeptAddress =
          r.address :: rs.filterMap resultKeptAddress := by
        simp [resultKeptAddress, hd]
      rw [hfm] at hnd
      have hsplit := List.nodup_append.mp hnd
      have hmemt : r.address ∉ t.map Prod.fst := fun hmem =>
        hsplit.2.2 hmem (List.mem_cons_self _ _)
      rw [show writeResults (r :: rs) t ts =
          writeResults rs (SetActor t r.address r.actor) ts by simp [writeResults, hd]]
      rw [setActor_of_not_mem _ hmemt]
      rw [writeResults_spec rs (t ++ [(r.address, r.actor)]) ts (by
        have : (t.map Prod.fst ++ [r.address]) ++ rs.filterMap resultKeptAddress =
            t.map Prod.fst ++ r.address :: rs.filterMap resultKeptAddress := by
          simp
        simpa [this] using hnd)]
      simp [resultEntry, resultTransfer, hd]

/-- The keys of the writer's entries are the kept addresses. -/
theorem map_fst_filterMap_resultEntry (rs : List migrationJobResult) :
    (rs.filterMap resultEntry).map Prod.fst = rs.filterMap resultKeptAddress := by
  induction rs with
  | nil => rfl
  | cons r rs ih =>
    by_cases hd : r.minerTypeMigrationShouldDelete <;>
      simp [resultEntry, resultKeptAddress, hd, ih]

/-- The kept addresses form a sublist of all result addresses. -/
theorem filterMap_keptAddress_sublist (rs : List migrationJobResult) :
    rs.filterMap resultKeptAddress <+ rs.map (fun r => r.address) := by
  induction rs with
  | nil => simp
  | cons r rs ih =>
    by_cases hd : r.minerTypeMigrationShouldDelete
    · rw [show (r :: rs).filterMap resultKeptAddress = rs.filterMap resultKeptAddress by
        simp [resultKeptAddress, hd]]
      exact ih.cons _
    · rw [show (r :: rs).filterMap resultKeptAddress =
          r.address :: rs.filterMap resultKeptAddress by simp [resultKeptAddress, hd]]
      exact ih.cons₂ _

/-- Kept entries and deleted results partition the result list. -/
theorem length_filterMap_resultEntry (rs : List migrationJobResult) :
    (rs.filterMap resultEntry).length +
      (rs.filter fun r => r.minerTypeMigrationShouldDelete).length = rs.length := by
  induction rs with
  | nil => rfl
  | cons r rs ih =>
    by_cases hd : r.minerTypeMigrationShouldDelete <;>
      simp [resultEntry, List.filter_cons, hd] <;> omega

/-- C8: on every successful run, the output tree holds exactly one entry
per non-deleted job result — `|output| = |input| − deleted_count` — and the
balance-transfer pass leaves the output tree's address list exactly as the
writer produced it (it adds no addresses). -/
theorem c8_cardinality_invariant (cfg : Config)
    (arrival : List migrationJobResult → List migrationJobResult)
    (store : Store) (actorsIn : StateTree) (priorEpoch : ChainEpoch) (cache : Cache)
    (hnd : (actorsIn.map Prod.fst).Nodup)
    (harr : ∀ l, arrival l ~ l)
    (results : List migrationJobResult) (cacheEnd : Cache)
    (hrun : runJobs priorEpoch store actorsIn cache = Except.ok (results, cacheEnd))
    (actorsOut : StateTree)
    (hout : MigrateStateTree cfg arrival store actorsIn priorEpoch cache = Except.ok actorsOut) :
    actorsOut.length =
      actorsIn.length - (results.filter fun r => r.minerTypeMigrationShouldDelete).length ∧
    actorsOut.map Prod.fst = (writeResults (arrival results) [] []).1.map Prod.fst := by
  unfold MigrateStateTree at hout
  split at hout
  · cases hout
  · rw [hrun] at hout
    dsimp only at hout
    have haddr : results.map (fun r => r.address) = actorsIn.map Prod.fst :=
      runJobs_addresses hrun
    have hndres : (results.filterMap resultKeptAddress).Nodup := by
      have hs := filterMap_keptAddress_sublist results
      rw [haddr] at hs
      exact hnd.sublist hs
    have hpermArr : arrival results ~ results := harr results
    have hndarr : ((arrival results).filterMap resultKeptAddress).Nodup :=
      ((hpermArr.filterMap _).nodup_iff).mpr hndres
    have hW := writeResults_spec (arrival results) [] [] (by simpa using hndarr)
    rw [hW] at hout
    dsimp only at hout
    simp only [List.nil_append] at hout
    constructor
    · have hkeys := applyTransfers_ok_keys hout
      have hlen : actorsOut.length = ((arrival results).filterMap resultEntry).length := by
        have hc := congrArg List.length hkeys
        simpa using hc
      have hpart := length_filterMap_resultEntry (arrival results)
      have hlenres : (arrival results).length = results.length := hpermArr.length_eq
      have hfdlen : ((arrival results).filter fun r => r.minerTypeMigrationShouldDelete).length =
          (results.filter fun r => r.minerTypeMigrationShouldDelete).length :=
        (hpermArr.filter _).length_eq
      have hinlen : results.length = actorsIn.length := by
        have hc := congrArg List.length haddr
        simpa using hc
      omega
    · rw [hW]
      simpa using applyTransfers_ok_keys hout

/-- C8 witness: the cardinality invariant evaluated on the Scenario B
tree (two actors in, zero deletions, two actors out). -/
theorem c8_witness_scenarioB :
    ([("t0100", { Code := .AccountV6, Head := "bafyAcct", CallSeqNum := 0, Balance := 5 }),
      ("t0101", { Code := .StorageMinerV6, Head := "bafyMinerHead", CallSeqNum := 0, Balance := 7 })] :
        StateTree).length =
      scenarioBTree.length -
        (c8Results.filter fun r => r.minerTypeMigrationShouldDelete).length ∧
    ([("t0100", { Code := .AccountV6, Head := "bafyAcct", CallSeqNum := 0, Balance := 5 }),
      ("t0101", { Code := .StorageMinerV6, Head := "bafyMinerHead", CallSeqNum := 0, Balance := 7 })] :
        StateTree).map Prod.fst =
      (writeResults ((fun l => l) c8Results) [] []).1.map Prod.fst :=
  c8_cardinality_invariant { MaxWorkers := 1 } (fun l => l) (fun _ => none) scenarioBTree 0 []
    (by decide) (fun l => List.Perm.refl l) c8Results [] rfl _ rfl

/-- C9: determinism modulo worker count and writer arrival order.  For a
fixed input tree (with distinct addresses), store, prior epoch and cache,
two successful runs with any configurations and any writer arrival orders
produce output trees holding the same actor mapping — hence the same
flushed root. -/
theorem c9_determinism_modulo_worker_count (cfg₁ cfg₂ : Config)
    (arrival₁ arrival₂ : List migrationJobResult → List migrationJobResult)
    (store : Store) (actorsIn : StateTree) (priorEpoch : ChainEpoch) (cache : Cache)
    (hnd : (actorsIn.map Prod.fst).Nodup)
    (harr₁ : ∀ l, arrival₁ l ~ l) (harr₂ : ∀ l, arrival₂ l ~ l)
    (out₁ out₂ : StateTree)
    (ho₁ : MigrateStateTree cfg₁ arrival₁ store actorsIn priorEpoch cache = Except.ok out₁)
    (ho₂ : MigrateStateTree cfg₂ arrival₂ store actorsIn priorEpoch cache = Except.ok out₂) :
    out₁ ~ out₂ := by
  unfold MigrateStateTree at ho₁ ho₂
  split at ho₁
  · cases ho₁
  · split at ho₂
    · cases ho₂
    · cases hrun : runJobs priorEpoch store actorsIn cache with
      | error e =>
        rw [hrun] at ho₁
        cases ho₁
      | ok p =>
        obtain ⟨results, cacheEnd⟩ := p
        rw [hrun] at ho₁ ho₂
        dsimp only at ho₁ ho₂
        have haddr : results.map (fun r => r.address) = actorsIn.map Prod.fst :=
          runJobs_addresses hrun
        have hndres : (results.filterMap resultKeptAddress).Nodup := by
          have hs := filterMap_keptAddress_sublist results
          rw [haddr] at hs
          exact hnd.sublist hs
        have hp₁ : arrival₁ results ~ results := harr₁ results
        have hp₂ : arrival₂ results ~ results := harr₂ results
        have hnd₁ : ((arrival₁ results).filterMap resultKeptAddress).Nodup :=
          ((hp₁.filterMap _).nodup_iff).mpr hndres
        have hnd₂ : ((arrival₂ results).filterMap resultKeptAddress).Nodup :=
          ((hp₂.filterMap _).nodup_iff).mpr hndres
        have hW₁ := writeResults_spec (arrival₁ results) [] [] (by simpa using hnd₁)
        have hW₂ := writeResults_spec (arrival₂ results) [] [] (by simpa using hnd₂)
        rw [hW₁] at ho₁
        rw [hW₂] at ho₂
        dsimp only at ho₁ ho₂
        simp only [List.nil_append] at ho₁ ho₂
        have hpRes : arrival₁ results ~ arrival₂ results := hp₁.trans hp₂.symm
        have hpE : (arrival₁ results).filterMap resultEntry ~
            (arrival₂ results).filterMap resultEntry := hpRes.filterMap _
        have hpT : (arrival₁ results).filterMap resultTransfer ~
            (arrival₂ results).filterMap resultTransfer := hpRes.filterMap _
        have hndE₁ : (((arrival₁ results).filterMap resultEntry).map Prod.fst).Nodup := by
          rw [map_fst_filterMap_resultEntry]
          exact hnd₁
        have hget : ∀ a, GetActor ((arrival₁ results).filterMap resultEntry) a =
            GetActor ((arrival₂ results).filterMap resultEntry) a :=
          getActor_congr_perm hpE hndE₁
        have hroute : ∀ b, routeTo ((arrival₁ results).filterMap resultEntry) b =
            routeTo ((arrival₂ results).filterMap resultEntry) b :=
          routeTo_congr fun a => by rw [hget a]
        have hgetOut : ∀ a, GetActor out₁ a = GetActor out₂ a := by
          intro a
          rw [applyTransfers_ok_getActor ho₁ a, applyTransfers_ok_getActor ho₂ a, hget a,
            routedSum_congr hroute hpT a]
        have hkeysOut : out₁.map Prod.fst ~ out₂.map Prod.fst := by
          rw [applyTransfers_ok_keys ho₁, applyTransfers_ok_keys ho₂]
          exact hpE.map Prod.fst
        have hndOut : (out₁.map Prod.fst).Nodup := by
          rw [applyTransfers_ok_keys ho₁]
          exact hndE₁
        exact perm_of_getActor_eq hndOut hkeysOut hgetOut

/-- C9 witness: two runs over the Scenario B tree, with one and two
workers and with identity and reversed writer arrival orders, produce
permuted (equal as mappings) output trees. -/
theorem c9_witness_two_orders :
    ([("t0100", { Code := .AccountV6, Head := "bafyAcct", CallSeqNum := 0, Balance := 5 }),
      ("t0101", { Code := .StorageMinerV6, Head := "bafyMinerHead", CallSeqNum := 0, Balance := 7 })] :
        StateTree) ~
    [("t0101", { Code := .StorageMinerV6, Head := "bafyMinerHead", CallSeqNum := 0, Balance := 7 }),
     ("t0100", { Code := .AccountV6, Head := "bafyAcct", CallSeqNum := 0, Balance := 5 })] :=
  c9_determinism_modulo_worker_count { MaxWorkers := 1 } { MaxWorkers := 2 }
    (fun l => l) (fun l => l.reverse) (fun _ => none) scenarioBTree 0 []
    (by decide) (fun l => List.Perm.refl l) (fun l => List.reverse_perm l) _ _ rfl rfl

/-- C10 witness: the frame property evaluated on a concrete job. -/
theorem c10_witness_concrete_job :
    ({ address := "t0100",
       actor := { Code := .AccountV6, Head := "bafyAcct", CallSeqNum := 3, Balance := 5 },
       minerTypeMigrationShouldDelete := false,
       minerTypeMigrationBalanceTransferInfo := emptyTransfer } : migrationJobResult).address =
      c10Job.address ∧
    ({ address := "t0100",
       actor := { Code := .AccountV6, Head := "bafyAcct", CallSeqNum := 3, Balance := 5 },
       minerTypeMigrationShouldDelete := false,
       minerTypeMigrationBalanceTransferInfo := emptyTransfer } : migrationJobResult).actor.CallSeqNum =
      c10Job.actor.CallSeqNum ∧
    ({ address := "t0100",
       actor := { Code := .AccountV6, Head := "bafyAcct", CallSeqNum := 3, Balance := 5 },
       minerTypeMigrationShouldDelete := false,
       minerTypeMigrationBalanceTransferInfo := emptyTransfer } : migrationJobResult).actor.Balance =
      c10Job.actor.Balance ∧
    ∃ mr : ActorMigrationResult,
      runEntry c10Job.migration
          { address := c10Job.address, balance := c10Job.actor.Balance, head := c10Job.actor.Head,
            priorEpoch := 0, cache := [] } [] =
        Except.ok (mr, []) ∧
      ({ address := "t0100",
         actor := { Code := .AccountV6, Head := "bafyAcct", CallSeqNum := 3, Balance := 5 },
         minerTypeMigrationShouldDelete := false,
         minerTypeMigrationBalanceTransferInfo := emptyTransfer } : migrationJobResult).actor.Code =
        mr.newCodeCID ∧
      ({ address := "t0100",
         actor := { Code := .AccountV6, Head := "bafyAcct", CallSeqNum := 3, Balance := 5 },
         minerTypeMigrationShouldDelete := false,
         minerTypeMigrationBalanceTransferInfo := emptyTransfer } : migrationJobResult).actor.Head =
        mr.newHead ∧
      ({ address := "t0100",
         actor := { Code := .AccountV6, Head := "bafyAcct", CallSeqNum := 3, Balance := 5 },
         minerTypeMigrationShouldDelete := false,
         minerTypeMigrationBalanceTransferInfo := emptyTransfer } : migrationJobResult).minerTypeMigrationShouldDelete =
        mr.minerTypeMigrationShouldDelete ∧
      ({ address := "t0100",
         actor := { Code := .AccountV6, Head := "bafyAcct", CallSeqNum := 3, Balance := 5 },
         minerTypeMigrationShouldDelete := false,
         minerTypeMigrationBalanceTransferInfo := emptyTransfer } : migrationJobResult).minerTypeMigrationBalanceTransferInfo =
        mr.minerTypeMigrationBalanceTransferInfo :=
  c10_job_run_frame c10Job 0 []
    { address := "t0100",
      actor := { Code := .AccountV6, Head := "bafyAcct", CallSeqNum := 3, Balance := 5 },
      minerTypeMigrationShouldDelete := false,
      minerTypeMigrationBalanceTransferInfo := emptyTransfer } [] rfl

end Nv14
